import Mathlib

/-!
Formal model of the content-deduplication memory subsystem of the
wakapedia-daily-news repository.

The subsystem consists of three near-identical category memories (news
URLs, tools, fun facts) in
`src/wakapedia_daily_news_generator/tools/{news_memory_tool,tool_memory,facts_memory_tool}.py`.
Each memory is a pure read-modify-write cycle over a JSON document; we embed the
record lists and the string algorithms directly, with Python `str`
primitives (`lower`, `strip`, `rstrip`, `split`) modelled character-wise
on `List Char`, Python floats modelled as `ℚ`, and the file-system
effects of `_load_memory` / `_save_memory` modelled as explicit state
passing over a small file-system state type.
-/

/-! ### Models of Python `str` primitives, character-wise on `List Char` -/

namespace PyStr

/-- Python `str.lower()` (restricted to the ASCII case mapping). -/
def lower (l : List Char) : List Char := l.map Char.toLower

/-- Strip the trailing run of characters satisfying `p` (Python `str.rstrip(chars)`). -/
def stripR (p : Char → Bool) (l : List Char) : List Char := (l.reverse.dropWhile p).reverse

/-- Strip both the leading and the trailing run of characters satisfying `p`
(Python `str.strip(chars)`, and `str.strip()` with `p := Char.isWhitespace`). -/
def stripBoth (p : Char → Bool) (l : List Char) : List Char := stripR p (l.dropWhile p)

/-- Python `str.split()` with no separator: split on runs of whitespace,
discarding empty tokens.  `cur` accumulates the current token in reverse. -/
def splitAux : List Char → List Char → List (List Char)
  | [], cur => if cur = [] then [] else [cur.reverse]
  | c :: cs, cur =>
    if c.isWhitespace then
      (if cur = [] then splitAux cs [] else cur.reverse :: splitAux cs [])
    else splitAux cs (c :: cur)

/-- Python `str.split()` (whitespace tokenisation, empty tokens dropped). -/
def split (l : List Char) : List (List Char) := splitAux l []

end PyStr

/-! ### Shared string helpers at `String` level -/

/-- Python `s.lower()`. -/
def pyLower (s : String) : String := ⟨PyStr.lower s.data⟩

/-- Python `s.strip()` (no argument: strips whitespace). -/
def pyStrip (s : String) : String := ⟨PyStr.stripBoth Char.isWhitespace s.data⟩

/-- Python slice `l[s:]` for an arbitrary (possibly negative) integer `s`. -/
def pySliceFrom (s : Int) (l : List α) : List α :=
  if s < 0 then l.drop (l.length - (-s).toNat) else l.drop s.toNat

/-- Outcome of a category-memory `save` call: a fresh record was appended, or
the record already existed and nothing was written. -/
inductive SaveOutcome where
  | saved
  | alreadySaved
deriving DecidableEq

/-- Result of a category-memory `save` call: the outcome string class, the
category's record list afterwards, and whether `_save_memory` was invoked. -/
structure SaveResult (ε : Type) where
  outcome : SaveOutcome
  entries : List ε
  wrote : Bool

/-! ### `tools/facts_memory_tool.py` -/

namespace FactsMemoryTool

/-- `MAX_ENTRIES = 90`. -/
def MAX_ENTRIES : Nat := 90

/-- `SIMILARITY_THRESHOLD = 0.4` (floats modelled as `ℚ`). -/
def SIMILARITY_THRESHOLD : ℚ := 0.4

/-- `STOP_WORDS`: the French and English stop words (source order kept;
the source `frozenset` collapses the repeated `"été"`, a `List` with
`contains` has the same membership). -/
def STOP_WORDS : List String := [
  "le", "la", "les", "un", "une", "des", "du", "de", "d", "l",
  "et", "ou", "a", "au", "aux", "en", "dans", "sur", "pour", "par",
  "avec", "sans", "est", "sont", "été", "était", "ce", "cette", "ces",
  "qui", "que", "dont", "où", "quand", "comment", "pourquoi",
  "son", "sa", "ses", "leur", "leurs", "mon", "ma", "mes",
  "il", "elle", "ils", "elles", "on", "nous", "vous",
  "plus", "moins", "très", "bien", "aussi", "comme", "ainsi",
  "premier", "première", "premiers", "premières",
  "avoir", "être", "fait", "faire", "été",
  "the", "a", "an", "of", "in", "on", "at", "to", "for", "by",
  "with", "from", "is", "are", "was", "were", "been", "be",
  "has", "have", "had", "this", "that", "these", "those",
  "which", "who", "whom", "whose", "when", "where", "why", "how",
  "first", "one", "two", "three"]

/-- `SYNONYMS`: canonical-synonym mapping, as an association list in source
order (the source `dict` has no duplicate keys, so `List.lookup` agrees
with `dict.get`). -/
def SYNONYMS : List (String × String) := [
  ("mite", "bug_insect"), ("moth", "bug_insect"), ("papillon", "bug_insect"),
  ("insecte", "bug_insect"),
  ("bug", "bug_term"), ("bogue", "bug_term"), ("erreur", "bug_term"),
  ("hopper", "grace_hopper"), ("grace", "grace_hopper"),
  ("harvard", "harvard_mark"), ("mark", "harvard_mark"),
  ("ordinateur", "computer"), ("computer", "computer"),
  ("informatique", "computer"), ("machine", "computer"),
  ("origine", "origin"), ("origin", "origin"), ("histoire", "origin"),
  ("history", "origin"), ("naissance", "origin"),
  ("1947", "year_1940s"), ("1940", "year_1940s"), ("1940s", "year_1940s"),
  ("1990", "year_1990s"), ("1990s", "year_1990s"), ("1995", "year_1990s"),
  ("1996", "year_1990s"), ("1997", "year_1990s"), ("1998", "year_1990s"),
  ("1999", "year_1990s"),
  ("easter", "easter_egg"), ("egg", "easter_egg"), ("caché", "easter_egg"),
  ("cache", "easter_egg"), ("hidden", "easter_egg"), ("secret", "easter_egg"),
  ("simulateur", "simulator_game"), ("simulator", "simulator_game"),
  ("jeu", "simulator_game"), ("game", "simulator_game"),
  ("vol", "flight_sim"), ("flight", "flight_sim"),
  ("excel", "spreadsheet"), ("tableur", "spreadsheet"),
  ("spreadsheet", "spreadsheet"), ("calc", "spreadsheet"),
  ("microsoft", "microsoft"), ("office", "microsoft"),
  ("développeur", "developer"), ("developpeur", "developer"),
  ("developer", "developer"), ("programmeur", "developer"),
  ("programmer", "developer"), ("ingénieur", "developer"),
  ("ingenieur", "developer"), ("engineer", "developer"),
  ("email", "email"), ("mail", "email"), ("courriel", "email"),
  ("courrier", "email"),
  ("internet", "network"), ("arpanet", "network"), ("réseau", "network"),
  ("reseau", "network"), ("network", "network"), ("web", "network"),
  ("intelligence", "ai"), ("artificielle", "ai"), ("artificial", "ai"),
  ("learning", "ai"), ("neural", "ai"), ("neurone", "ai"), ("deep", "ai"),
  ("langage", "programming"), ("language", "programming"),
  ("programmation", "programming"), ("programming", "programming"),
  ("code", "programming"), ("coder", "programming"),
  ("nasa", "space"), ("spatial", "space"), ("space", "space"),
  ("apollo", "space"), ("lune", "space"), ("moon", "space"),
  ("fusée", "space"), ("rocket", "space"),
  ("cryptographie", "crypto"), ("cryptography", "crypto"),
  ("chiffrement", "crypto"), ("encryption", "crypto"),
  ("sécurité", "crypto"), ("security", "crypto"),
  ("hacker", "crypto"), ("pirate", "crypto")]

/-- The punctuation characters of the source's `word.strip(".,;:!?\x22\x27()-")`
(the apostrophe, code point 39, written via `Char.ofNat`). -/
def PUNCT_CHARS : List Char :=
  [Char.ofNat 46, Char.ofNat 44, Char.ofNat 59, Char.ofNat 58, Char.ofNat 33,
   Char.ofNat 63, Char.ofNat 34, Char.ofNat 39, Char.ofNat 40, Char.ofNat 41,
   Char.ofNat 45]

/-- Membership in the stripped punctuation set. -/
def isPunct (c : Char) : Bool := PUNCT_CHARS.contains c

/-- `_normalize_keyword`: lowercase, strip whitespace, strip punctuation,
then map through the synonym table. -/
def _normalize_keyword (word : String) : String :=
  let w := PyStr.stripBoth isPunct (PyStr.stripBoth Char.isWhitespace (PyStr.lower word.data))
  match SYNONYMS.lookup (⟨w⟩ : String) with
  | some canon => canon
  | none => ⟨w⟩

/-- `_extract_keywords`: the keyword set of a text (Python `set` modelled
as `Finset String`). -/
def _extract_keywords (text : String) : Finset String :=
  (PyStr.split (PyStr.stripBoth Char.isWhitespace (PyStr.lower text.data))).foldl
    (fun keywords word =>
      let clean_word := PyStr.stripBoth isPunct word
      if clean_word = [] then keywords
      else if STOP_WORDS.contains (⟨clean_word⟩ : String) then keywords
      else if clean_word.length < 3 then keywords
      else insert (_normalize_keyword ⟨clean_word⟩) keywords)
    ∅

/-- `_calculate_similarity` (float arithmetic modelled exactly in `ℚ`). -/
def _calculate_similarity (text1 text2 : String) : ℚ :=
  let keywords1 := _extract_keywords text1
  let keywords2 := _extract_keywords text2
  if keywords1 = ∅ ∨ keywords2 = ∅ then 0
  else ((keywords1 ∩ keywords2).card : ℚ) / (min keywords1.card keywords2.card : ℚ)

/-- One record of `used_facts.json`. -/
structure FactEntry where
  summary : String
  full : String
  date_used : String
deriving DecidableEq

/-- The classification verdicts of `CheckFactTool._run` (the leading verdict
token of the returned string; `attention` carries the matched stored
summary quoted in the message). -/
inductive CheckVerdict where
  | oui
  | attention (existing : String)
  | non
deriving DecidableEq

/-- `CheckFactTool._run`, as a function of the loaded record list: first the
exact-match scan over all records, then the similarity scan. -/
def CheckFactTool_run (fact_summary : String) (facts : List FactEntry) : CheckVerdict :=
  let normalized_summary := pyStrip (pyLower fact_summary)
  match facts.find? (fun entry => pyStrip (pyLower entry.summary) == normalized_summary) with
  | some _ => .oui
  | none =>
    match facts.find? (fun entry =>
        decide (SIMILARITY_THRESHOLD < _calculate_similarity normalized_summary entry.summary)) with
    | some entry => .attention entry.summary
    | none => .non

/-- `SaveFactTool._run`, as a state transition on the record list (`now` is
the `datetime.now().isoformat()` timestamp, passed explicitly). -/
def SaveFactTool_run (fact_summary fact_full now : String) (facts : List FactEntry) :
    SaveResult FactEntry :=
  let normalized_summary := pyStrip (pyLower fact_summary)
  if facts.any (fun entry => pyStrip (pyLower entry.summary) == normalized_summary) then
    ⟨.alreadySaved, facts, false⟩
  else
    let facts1 := facts ++ [⟨fact_summary, fact_full, now⟩]
    let facts2 :=
      if MAX_ENTRIES < facts1.length then facts1.drop (facts1.length - MAX_ENTRIES) else facts1
    ⟨.saved, facts2, true⟩

/-- `ListUsedFactsTool._run`: `none` models the empty-store sentinel message;
otherwise the selected records, most recent first (`facts[-limit:]` then
`reverse()`). -/
def ListUsedFactsTool_run (limit : Int) (facts : List FactEntry) : Option (List FactEntry) :=
  if facts = [] then none
  else some (pySliceFrom (-limit) facts).reverse

/-! #### File-system model for `_load_memory` / `_save_memory`

`_load_memory` opens `MEMORY_FILE`, runs `json.load`, and classifies the
result.  We abstract the parse of the raw file contents as a
`ParseOutcome` input (`parseError` = `json.JSONDecodeError`, `ioError` =
any other exception while opening/reading, `ok` = the parsed value), and
carry the two file paths (`used_facts.json` and its `.json.bak` backup) as
explicit state.  The identically-structured loaders of
`news_memory_tool.py` and `tool_memory.py` differ only in the path and the
expected key. -/

/-- A minimal model of a parsed Python/JSON value, enough to express the
`isinstance(data, dict) and "facts" in data` validation. -/
inductive PyJson where
  | null
  | bool (b : Bool)
  | num (q : ℚ)
  | str (s : String)
  | arr (elems : List PyJson)
  | obj (fields : List (String × PyJson))

/-- `"facts" in data` for a parsed dict. -/
def hasKey (fields : List (String × PyJson)) (k : String) : Bool :=
  fields.any (fun f => f.1 == k)

/-- `isinstance(data, dict) and "facts" in data`. -/
def isValidMemoryDoc : PyJson → Bool
  | .obj fields => hasKey fields "facts"
  | _ => false

/-- The empty document `{"facts": []}` returned on every recovery path. -/
def emptyFactsDoc : PyJson := .obj [("facts", PyJson.arr [])]

/-- The possible outcomes of `json.load` on the file contents. -/
inductive ParseOutcome where
  | parseError
  | ioError
  | ok (data : PyJson)

/-- The file-system state seen by `_load_memory`: the contents (if any) at
`MEMORY_FILE` and at the `.json.bak` backup path. -/
structure LoadFS where
  memoryFile : Option String
  backupFile : Option String
deriving DecidableEq

/-- `_load_memory`: total function returning the document and the
file-system state afterwards.  `renameSucceeds` injects the outcome of the
best-effort `MEMORY_FILE.rename(backup_path)` (its failure is swallowed by
the bare `except Exception: pass`). -/
def _load_memory (parsed : ParseOutcome) (renameSucceeds : Bool) (fs : LoadFS) :
    PyJson × LoadFS :=
  match parsed with
  | .ok data => if isValidMemoryDoc data then (data, fs) else (emptyFactsDoc, fs)
  | .parseError =>
    (emptyFactsDoc,
      if renameSucceeds then { memoryFile := none, backupFile := fs.memoryFile } else fs)
  | .ioError => (emptyFactsDoc, fs)

/-- Failure injection for `_save_memory`: where (if anywhere) an exception is
raised — at `tempfile.mkstemp`, during `json.dump`/the file write, or at
`os.replace`. -/
inductive SaveFailure where
  | noFailure
  | mkstempFails
  | writeFails
  | replaceFails
deriving DecidableEq

/-- The file-system state seen by `_save_memory`: the document currently
persisted at the target path, and whether a stray temporary file exists. -/
structure SaveFS (δ : Type) where
  target : Option δ
  tempExists : Bool

/-- `_save_memory`, mirroring its nested `try`/`except` structure.  The
returned `Bool` is `true` iff the exception is re-raised to the caller.
`unlinkSucceeds` injects the outcome of the best-effort `os.unlink`
cleanup of the temporary file. -/
def _save_memory (data : δ) (failAt : SaveFailure) (unlinkSucceeds : Bool)
    (fs : SaveFS δ) : Bool × SaveFS δ :=
  if failAt = SaveFailure.mkstempFails then
    -- the outer `except` logs and re-raises; no temp file was created
    (true, fs)
  else
    -- `mkstemp` succeeded and created the temporary file
    let fsTemp : SaveFS δ := { fs with tempExists := true }
    if failAt = SaveFailure.writeFails ∨ failAt = SaveFailure.replaceFails then
      -- inner `except`: best-effort `os.unlink(temp_path)`, then `raise`,
      -- re-raised again by the outer `except`; the target is untouched
      (true, { fsTemp with tempExists := !unlinkSucceeds })
    else
      -- the write succeeds and `os.replace` atomically installs the data
      (false, { target := some data, tempExists := false })

end FactsMemoryTool

/-! ### `tools/news_memory_tool.py` -/

namespace NewsMemoryTool

/-- `MAX_ENTRIES = 90`. -/
def MAX_ENTRIES : Nat := 90

/-- `_normalize_url`: `url.rstrip("/").lower().strip()`. -/
def _normalize_url (url : String) : String :=
  pyStrip (pyLower ⟨PyStr.stripR (fun c => c == Char.ofNat 47) url.data⟩)

/-- One record of `used_news_urls.json`. -/
structure NewsEntry where
  url : String
  title : String
  date_used : String
deriving DecidableEq

/-- `CheckNewsUrlTool._run`: `true` models the `"OUI"` verdict. -/
def CheckNewsUrlTool_run (url : String) (urls : List NewsEntry) : Bool :=
  urls.any (fun entry => _normalize_url entry.url == _normalize_url url)

/-- `SaveNewsUrlTool._run`, as a state transition on the record list. -/
def SaveNewsUrlTool_run (url title now : String) (urls : List NewsEntry) :
    SaveResult NewsEntry :=
  let normalized_url := _normalize_url url
  if urls.any (fun entry => _normalize_url entry.url == normalized_url) then
    ⟨.alreadySaved, urls, false⟩
  else
    let urls1 := urls ++ [⟨url, title, now⟩]
    let urls2 :=
      if MAX_ENTRIES < urls1.length then urls1.drop (urls1.length - MAX_ENTRIES) else urls1
    ⟨.saved, urls2, true⟩

/-- `ListUsedNewsUrlsTool._run` (same shape as the facts lister). -/
def ListUsedNewsUrlsTool_run (limit : Int) (urls : List NewsEntry) : Option (List NewsEntry) :=
  if urls = [] then none
  else some (pySliceFrom (-limit) urls).reverse

end NewsMemoryTool

/-! ### `tools/tool_memory.py` -/

namespace ToolMemory

/-- `MAX_ENTRIES = 90`. -/
def MAX_ENTRIES : Nat := 90

/-- `_normalize_url` (verbatim copy in this module). -/
def _normalize_url (url : String) : String :=
  pyStrip (pyLower ⟨PyStr.stripR (fun c => c == Char.ofNat 47) url.data⟩)

/-- `_normalize_name`: `name.lower().strip()`. -/
def _normalize_name (name : String) : String := pyStrip (pyLower name)

/-- One record of `used_tools.json` (a missing `url` key reads as `""` via
`entry.get("url", "")`). -/
structure ToolEntry where
  name : String
  url : String
  date_used : String
deriving DecidableEq

/-- `CheckToolUrlTool._run`: `true` models the `"OUI"` verdict.  Records with
a falsy (empty) `url` are skipped by the `if entry_url and ...` guard. -/
def CheckToolUrlTool_run (url : String) (tools : List ToolEntry) : Bool :=
  tools.any (fun entry =>
    entry.url ≠ "" && (_normalize_url entry.url == _normalize_url url))

/-- `CheckToolNameTool._run`: `true` models the `"OUI"` verdict. -/
def CheckToolNameTool_run (tool_name : String) (tools : List ToolEntry) : Bool :=
  tools.any (fun entry =>
    entry.name ≠ "" && (_normalize_name entry.name == _normalize_name tool_name))

/-- The duplicate scan of `SaveToolTool._run` over the stored records, in
order; per record the name guard is tested before the URL guard, and each
returns a distinct rejection message. -/
inductive SaveToolReject where
  | sameName
  | sameUrl
deriving DecidableEq

/-- The in-order scan of `SaveToolTool._run`. -/
def saveToolScan (normalized_name normalized_url : String) :
    List ToolEntry → Option SaveToolReject
  | [] => none
  | entry :: rest =>
    if entry.name ≠ "" ∧ _normalize_name entry.name = normalized_name then
      some SaveToolReject.sameName
    else if normalized_url ≠ "" ∧ entry.url ≠ "" ∧ _normalize_url entry.url = normalized_url then
      some SaveToolReject.sameUrl
    else saveToolScan normalized_name normalized_url rest

/-- `SaveToolTool._run`, as a state transition on the record list.  The
`tool_url` argument defaults to `""`; a falsy `tool_url` yields
`normalized_url = ""`, which disables the URL guard. -/
def SaveToolTool_run (tool_name tool_url now : String) (tools : List ToolEntry) :
    Option SaveToolReject × SaveResult ToolEntry :=
  let normalized_name := _normalize_name tool_name
  let normalized_url := if tool_url ≠ "" then _normalize_url tool_url else ""
  match saveToolScan normalized_name normalized_url tools with
  | some r => (some r, ⟨.alreadySaved, tools, false⟩)
  | none =>
    let tools1 := tools ++ [⟨tool_name, tool_url, now⟩]
    let tools2 :=
      if MAX_ENTRIES < tools1.length then tools1.drop (tools1.length - MAX_ENTRIES) else tools1
    (none, ⟨.saved, tools2, true⟩)

end ToolMemory


/-- A sequence of fact saves starting from the empty store (timestamps and
full texts carried in the triples `(summary, full, date)`). -/
def runFactSaves (rs : List (String × String × String)) : List FactsMemoryTool.FactEntry :=
  rs.foldl (fun st r => (FactsMemoryTool.SaveFactTool_run r.1 r.2.1 r.2.2 st).entries) []

/-- The record a successful save of the triple `r` appends. -/
def factEntryOf (r : String × String × String) : FactsMemoryTool.FactEntry :=
  ⟨r.1, r.2.1, r.2.2⟩

/-- The tag set exactly as the specification describes it: whitespace
tokenization of the raw text, then per token punctuation stripping,
lowercasing, discarding of tokens shorter than 3 characters and stop-word
tokens, and synonym canonicalization.  Compared below with the source's
`_extract_keywords` (which lowercases the whole text first). -/
def specTagSet (text : String) : Finset String :=
  (PyStr.split text.data).foldl
    (fun tags w =>
      if 3 ≤ (PyStr.lower (PyStr.stripBoth FactsMemoryTool.isPunct w)).length ∧
          ¬ FactsMemoryTool.STOP_WORDS.contains
            (⟨PyStr.lower (PyStr.stripBoth FactsMemoryTool.isPunct w)⟩ : String) then
        insert ((FactsMemoryTool.SYNONYMS.lookup
            (⟨PyStr.lower (PyStr.stripBoth FactsMemoryTool.isPunct w)⟩ : String)).getD
          ⟨PyStr.lower (PyStr.stripBoth FactsMemoryTool.isPunct w)⟩) tags
      else tags)
    ∅

/-! ## Theorems -/

/-! ### Character-level facts about `Char.toLower` -/

theorem char_eq_iff_toNat {a b : Char} : a = b ↔ a.toNat = b.toNat := by
  constructor
  · intro h; rw [h]
  · intro h; rw [← Char.ofNat_toNat a, ← Char.ofNat_toNat b, h]

theorem char_toNat_ofNat_of_lt {n : Nat} (h : n < 55296) : (Char.ofNat n).toNat = n := by
  rw [Char.ofNat, dif_pos (Or.inl h)]
  simp [Char.ofNatAux, Char.toNat, UInt32.ofNat', UInt32.toNat]

theorem char_isWhitespace_iff {c : Char} :
    c.isWhitespace = true ↔ (c.toNat = 32 ∨ c.toNat = 9 ∨ c.toNat = 13 ∨ c.toNat = 10) := by
  simp [Char.isWhitespace, char_eq_iff_toNat]
  tauto

theorem char_toLower_toNat (c : Char) :
    (Char.toLower c).toNat = if 65 ≤ c.toNat ∧ c.toNat ≤ 90 then c.toNat + 32 else c.toNat := by
  rw [Char.toLower]
  split
  · next h => exact char_toNat_ofNat_of_lt (by omega)
  · rfl

theorem char_isWhitespace_toLower (c : Char) :
    (Char.toLower c).isWhitespace = c.isWhitespace := by
  rw [Bool.eq_iff_iff, char_isWhitespace_iff, char_isWhitespace_iff]
  have h1 := char_toLower_toNat c
  split at h1 <;> omega

theorem char_toLower_idem (c : Char) : Char.toLower (Char.toLower c) = Char.toLower c := by
  rw [char_eq_iff_toNat, char_toLower_toNat (Char.toLower c), char_toLower_toNat c]
  by_cases h : 65 ≤ c.toNat ∧ c.toNat ≤ 90
  · simp only [if_pos h]; rw [if_neg (by omega)]
  · simp only [if_neg h]

namespace PyStr

theorem dropWhile_dropWhile (p : Char → Bool) (l : List Char) :
    (l.dropWhile p).dropWhile p = l.dropWhile p := by
  induction l with
  | nil => rfl
  | cons c cs ih =>
    by_cases h : p c
    · simp [List.dropWhile_cons, h, ih]
    · simp [List.dropWhile_cons, h]

theorem dropWhile_head_false {p : Char → Bool} {l : List Char} {c : Char}
    (h : (l.dropWhile p).head? = some c) : p c = false := by
  induction l with
  | nil => simp [List.dropWhile] at h
  | cons a as ih =>
    by_cases ha : p a
    · rw [List.dropWhile_cons, if_pos ha] at h; exact ih h
    · rw [List.dropWhile_cons, if_neg ha] at h
      simp at h
      rw [← h]
      exact Bool.of_not_eq_true ha

theorem dropWhile_eq_self_of_head {p : Char → Bool} {l : List Char}
    (h : ∀ c, l.head? = some c → p c = false) : l.dropWhile p = l := by
  cases l with
  | nil => rfl
  | cons c cs =>
    have := h c rfl
    simp [List.dropWhile_cons, this]

theorem stripR_eq_self_of_getLast {p : Char → Bool} {l : List Char}
    (h : ∀ c, l.getLast? = some c → p c = false) : stripR p l = l := by
  unfold stripR
  rw [dropWhile_eq_self_of_head, List.reverse_reverse]
  intro c hc
  exact h c (by rwa [List.head?_reverse] at hc)

theorem stripR_getLast_false {p : Char → Bool} {l : List Char} {c : Char}
    (h : (stripR p l).getLast? = some c) : p c = false := by
  unfold stripR at h
  rw [List.getLast?_reverse] at h
  exact dropWhile_head_false h

theorem stripR_stripR (p : Char → Bool) (l : List Char) :
    stripR p (stripR p l) = stripR p l := by
  unfold stripR
  rw [List.reverse_reverse, dropWhile_dropWhile]

/-- `stripR p l` is a prefix of `l`. -/
theorem stripR_prefix (p : Char → Bool) (l : List Char) : stripR p l <+: l := by
  unfold stripR
  have h : l.reverse.dropWhile p <:+ l.reverse := List.dropWhile_suffix p
  have h2 := List.reverse_prefix.mpr h
  rwa [List.reverse_reverse] at h2

theorem head?_of_prefix {l m : List α} (h : l <+: m) (hne : l ≠ []) :
    m.head? = l.head? := by
  obtain ⟨t, ht⟩ := h
  cases l with
  | nil => exact absurd rfl hne
  | cons a as => rw [← ht]; rfl

theorem stripBoth_head_false {p : Char → Bool} {l : List Char} {c : Char}
    (h : (stripBoth p l).head? = some c) : p c = false := by
  unfold stripBoth at h
  have hne : stripR p (l.dropWhile p) ≠ [] := by
    intro hx; rw [hx] at h; exact Option.noConfusion h
  have hpre := stripR_prefix p (l.dropWhile p)
  rw [← head?_of_prefix hpre hne] at h
  exact dropWhile_head_false h

theorem stripBoth_getLast_false {p : Char → Bool} {l : List Char} {c : Char}
    (h : (stripBoth p l).getLast? = some c) : p c = false :=
  stripR_getLast_false h

theorem stripBoth_idem (p : Char → Bool) (l : List Char) :
    stripBoth p (stripBoth p l) = stripBoth p l := by
  have hd : (stripBoth p l).dropWhile p = stripBoth p l :=
    dropWhile_eq_self_of_head (fun _ hc => stripBoth_head_false hc)
  show stripR p ((stripBoth p l).dropWhile p) = stripBoth p l
  rw [hd]
  exact stripR_stripR p _

theorem dropWhile_map_comm {p : Char → Bool} {f : Char → Char}
    (hf : ∀ c, p (f c) = p c) (l : List Char) :
    (l.map f).dropWhile p = (l.dropWhile p).map f := by
  induction l with
  | nil => rfl
  | cons c cs ih =>
    by_cases h : p c
    · simp [List.dropWhile_cons, h, hf, ih]
    · simp [List.dropWhile_cons, h, hf]

theorem stripR_map_comm {p : Char → Bool} {f : Char → Char}
    (hf : ∀ c, p (f c) = p c) (l : List Char) :
    stripR p (l.map f) = (stripR p l).map f := by
  unfold stripR
  rw [← List.map_reverse, dropWhile_map_comm hf, List.map_reverse]

theorem stripBoth_map_comm {p : Char → Bool} {f : Char → Char}
    (hf : ∀ c, p (f c) = p c) (l : List Char) :
    stripBoth p (l.map f) = (stripBoth p l).map f := by
  unfold stripBoth
  rw [dropWhile_map_comm hf, stripR_map_comm hf]

theorem stripBoth_eq_self_of_not {p : Char → Bool} {l : List Char}
    (h : ∀ c ∈ l, p c = false) : stripBoth p l = l := by
  unfold stripBoth
  rw [dropWhile_eq_self_of_head, stripR_eq_self_of_getLast]
  · intro c hc
    exact h c (List.mem_of_mem_getLast? (by rw [hc]; rfl))
  · intro c hc
    exact h c (by cases l with
      | nil => exact Option.noConfusion hc
      | cons a as => rw [List.head?_cons] at hc; rw [← Option.some_inj.mp hc]; exact List.mem_cons_self a as)

theorem mem_of_mem_stripR {p : Char → Bool} {l : List Char} {c : Char}
    (h : c ∈ stripR p l) : c ∈ l := by
  unfold stripR at h
  rw [List.mem_reverse] at h
  have := (List.dropWhile_suffix p (l := l.reverse)).subset h
  rwa [List.mem_reverse] at this

theorem mem_of_mem_stripBoth {p : Char → Bool} {l : List Char} {c : Char}
    (h : c ∈ stripBoth p l) : c ∈ l :=
  (List.dropWhile_suffix p).subset (mem_of_mem_stripR h)

theorem lower_idem (l : List Char) : lower (lower l) = lower l := by
  unfold lower
  rw [List.map_map]
  exact List.map_congr_left (fun c _ => char_toLower_idem c)

theorem length_lower (l : List Char) : (lower l).length = l.length := List.length_map l _

/-! Lemmas about `split` -/

theorem splitAux_map_toLower (l : List Char) (cur : List Char) :
    splitAux (l.map Char.toLower) (cur.map Char.toLower) =
      (splitAux l cur).map (List.map Char.toLower) := by
  induction l generalizing cur with
  | nil =>
    simp only [List.map_nil, splitAux]
    by_cases h : cur = []
    · simp [h]
    · rw [if_neg (by simpa using h), if_neg h]
      simp
  | cons c cs ih =>
    simp only [List.map_cons, splitAux, char_isWhitespace_toLower]
    by_cases hws : c.isWhitespace
    · rw [if_pos hws, if_pos hws]
      by_cases h : cur = []
      · rw [h]
        simpa using ih []
      · rw [if_neg (by simpa using h), if_neg h]
        have := ih []
        simp only [List.map_nil] at this
        simp [this]
    · rw [if_neg hws, if_neg hws]
      exact ih (c :: cur)

theorem split_lower (l : List Char) :
    split (lower l) = (split l).map (List.map Char.toLower) := by
  unfold split lower
  simpa using splitAux_map_toLower l []

theorem split_cons_ws {c : Char} (hws : c.isWhitespace) (l : List Char) :
    split (c :: l) = split l := by
  unfold split
  simp [splitAux, hws]

theorem split_dropWhile_ws (l : List Char) :
    split (l.dropWhile Char.isWhitespace) = split l := by
  induction l with
  | nil => rfl
  | cons c cs ih =>
    by_cases h : c.isWhitespace
    · rw [List.dropWhile_cons, if_pos h, ih, split_cons_ws h]
    · rw [List.dropWhile_cons, if_neg h]

theorem splitAux_append_ws {c : Char} (hws : c.isWhitespace) (l cur : List Char) :
    splitAux (l ++ [c]) cur = splitAux l cur := by
  induction l generalizing cur with
  | nil =>
    show splitAux [c] cur = splitAux [] cur
    by_cases h : cur = [] <;> simp [splitAux, hws, h]
  | cons a as ih =>
    simp only [List.cons_append, splitAux]
    by_cases ha : a.isWhitespace
    · rw [if_pos ha, if_pos ha]
      by_cases h : cur = [] <;> simp [h, ih]
    · rw [if_neg ha, if_neg ha]
      exact ih (a :: cur)

theorem split_append_allWs {s : List Char} (hs : ∀ c ∈ s, c.isWhitespace) (l : List Char) :
    split (l ++ s) = split l := by
  induction s generalizing l with
  | nil => rw [List.append_nil]
  | cons c cs ih =>
    have : l ++ c :: cs = (l ++ [c]) ++ cs := by simp
    rw [this, ih (fun x hx => hs x (List.mem_cons_of_mem c hx))]
    exact splitAux_append_ws (hs c (List.mem_cons_self c cs)) l []

theorem split_stripBoth_ws (l : List Char) :
    split (stripBoth Char.isWhitespace l) = split l := by
  unfold stripBoth
  rw [← split_dropWhile_ws l]
  set m := l.dropWhile Char.isWhitespace with hm
  have hdecomp : m = stripR Char.isWhitespace m ++ (m.reverse.takeWhile Char.isWhitespace).reverse := by
    unfold stripR
    rw [← List.reverse_append, List.takeWhile_append_dropWhile, List.reverse_reverse]
  calc split (stripR Char.isWhitespace m)
      = split (stripR Char.isWhitespace m ++ (m.reverse.takeWhile Char.isWhitespace).reverse) := by
        rw [split_append_allWs]
        intro c hc
        rw [List.mem_reverse] at hc
        exact List.mem_takeWhile_imp hc
    _ = split m := by rw [← hdecomp]

/-- Every character of every token produced by `splitAux` is non-whitespace,
provided the accumulator contains only non-whitespace characters. -/
theorem splitAux_no_ws {l cur : List Char} (hcur : ∀ c ∈ cur, c.isWhitespace = false) :
    ∀ t ∈ splitAux l cur, ∀ c ∈ t, c.isWhitespace = false := by
  induction l generalizing cur with
  | nil =>
    intro t ht c hc
    simp only [splitAux] at ht
    by_cases h : cur = []
    · rw [if_pos h] at ht; exact absurd ht (List.not_mem_nil t)
    · rw [if_neg h] at ht
      have : t = cur.reverse := by simpa using ht
      exact hcur c (by rw [this, List.mem_reverse] at hc; exact hc)
  | cons a as ih =>
    intro t ht c hc
    simp only [splitAux] at ht
    by_cases ha : a.isWhitespace
    · rw [if_pos ha] at ht
      by_cases h : cur = []
      · rw [if_pos h] at ht
        exact ih (by simp) t ht c hc
      · rw [if_neg h] at ht
        rcases List.mem_cons.mp ht with h1 | h1
        · exact hcur c (by rw [h1, List.mem_reverse] at hc; exact hc)
        · exact ih (by simp) t h1 c hc
    · rw [if_neg ha] at ht
      refine ih ?_ t ht c hc
      intro x hx
      rcases List.mem_cons.mp hx with h1 | h1
      · rw [h1]; exact Bool.of_not_eq_true ha
      · exact hcur x h1

theorem split_no_ws (l : List Char) :
    ∀ t ∈ split l, ∀ c ∈ t, c.isWhitespace = false :=
  splitAux_no_ws (by simp)

end PyStr

/-! ### Normalizer idempotence helpers -/

theorem stripBoth_ws_lower_comm (l : List Char) :
    PyStr.stripBoth Char.isWhitespace (PyStr.lower l) =
      PyStr.lower (PyStr.stripBoth Char.isWhitespace l) :=
  PyStr.stripBoth_map_comm char_isWhitespace_toLower l

theorem normName_list_idem (l : List Char) :
    PyStr.stripBoth Char.isWhitespace (PyStr.lower (PyStr.stripBoth Char.isWhitespace (PyStr.lower l))) =
      PyStr.stripBoth Char.isWhitespace (PyStr.lower l) := by
  calc PyStr.stripBoth Char.isWhitespace (PyStr.lower (PyStr.stripBoth Char.isWhitespace (PyStr.lower l)))
      = PyStr.stripBoth Char.isWhitespace (PyStr.lower (PyStr.lower (PyStr.stripBoth Char.isWhitespace l))) := by
        rw [stripBoth_ws_lower_comm l]
    _ = PyStr.stripBoth Char.isWhitespace (PyStr.lower (PyStr.stripBoth Char.isWhitespace l)) := by
        rw [PyStr.lower_idem]
    _ = PyStr.stripBoth Char.isWhitespace (PyStr.stripBoth Char.isWhitespace (PyStr.lower l)) := by
        rw [stripBoth_ws_lower_comm l]
    _ = PyStr.stripBoth Char.isWhitespace (PyStr.lower l) := PyStr.stripBoth_idem _ _

theorem lower_eq_self_of_fixed {l : List Char} (h : ∀ c ∈ l, Char.toLower c = c) :
    PyStr.lower l = l := by
  unfold PyStr.lower
  rw [List.map_congr_left h, List.map_id']

/-- C7 counterexample input: `"a/ "`.  `_normalize_url` first strips the
trailing slashes, but the trailing space protects the slash; the later
`strip()` then exposes it, so a second application removes it. -/
theorem normalize_url_counterexample :
    NewsMemoryTool._normalize_url (NewsMemoryTool._normalize_url "a/ ") ≠
      NewsMemoryTool._normalize_url "a/ " := by decide

/-- C7 (amended): name normalization is idempotent for every string; URL
normalization is idempotent for every string whose normal form does not end
in a slash (code point 47), but not in general. -/
theorem normalize_idempotent_amended :
    (∀ x : String, ToolMemory._normalize_name (ToolMemory._normalize_name x) =
      ToolMemory._normalize_name x)
    ∧ (∀ x : String, (NewsMemoryTool._normalize_url x).data.getLast? ≠ some (Char.ofNat 47) →
      NewsMemoryTool._normalize_url (NewsMemoryTool._normalize_url x) =
        NewsMemoryTool._normalize_url x) := by
  constructor
  · intro x
    show (⟨PyStr.stripBoth Char.isWhitespace (PyStr.lower
        (PyStr.stripBoth Char.isWhitespace (PyStr.lower x.data)))⟩ : String) = _
    exact congrArg String.mk (normName_list_idem x.data)
  · intro x hx
    set slash : Char → Bool := fun c => c == Char.ofNat 47 with hslash
    set m : List Char := PyStr.stripBoth Char.isWhitespace
      (PyStr.lower (PyStr.stripR slash x.data)) with hm
    have hdata : (NewsMemoryTool._normalize_url x).data = m := rfl
    have h1 : PyStr.stripR slash m = m := by
      refine PyStr.stripR_eq_self_of_getLast ?_
      intro c hc
      rw [hdata] at hx
      have hne : c ≠ Char.ofNat 47 := by
        intro hcc
        exact hx (by rw [hc, hcc])
      simp [hslash, hne]
    have h2 : PyStr.lower m = m := by
      refine lower_eq_self_of_fixed ?_
      intro c hc
      have hc2 : c ∈ PyStr.lower (PyStr.stripR slash x.data) := PyStr.mem_of_mem_stripBoth hc
      obtain ⟨c0, _, hc0⟩ := List.mem_map.mp hc2
      rw [← hc0]
      exact char_toLower_idem c0
    have h3 : PyStr.stripBoth Char.isWhitespace m = m := by
      rw [hm]
      exact PyStr.stripBoth_idem _ _
    show (⟨PyStr.stripBoth Char.isWhitespace (PyStr.lower (PyStr.stripR slash m))⟩ : String) =
      (⟨m⟩ : String)
    rw [h1, h2, h3]

theorem normalize_idempotent_amended_witness :
    (ToolMemory._normalize_name (ToolMemory._normalize_name " A Bc ") =
      ToolMemory._normalize_name " A Bc ")
    ∧ (NewsMemoryTool._normalize_url (NewsMemoryTool._normalize_url "HTTPS://X.COM/a/") =
      NewsMemoryTool._normalize_url "HTTPS://X.COM/a/") :=
  ⟨normalize_idempotent_amended.1 " A Bc ",
   normalize_idempotent_amended.2 "HTTPS://X.COM/a/" (by decide)⟩

/-! ### C3: the worked similarity example -/

/-- C3: with `"first bug moth harvard 1947"` stored, the candidate
`"bug moth harvard mark computer 1947"` scores similarity exactly `1.0`
(its five canonical tags intersect the stored four in all four, and the
minimum set size is 4), and `CheckFactTool._run` classifies it as
`"ATTENTION"` (similar), not as new. -/
theorem facts_similarity_example :
    FactsMemoryTool._calculate_similarity "bug moth harvard mark computer 1947"
      "first bug moth harvard 1947" = 1
    ∧ FactsMemoryTool.CheckFactTool_run "bug moth harvard mark computer 1947"
      [⟨"first bug moth harvard 1947", "", "2026-01-01T00:00:00"⟩] =
      FactsMemoryTool.CheckVerdict.attention "first bug moth harvard 1947" := by
  have h1 : FactsMemoryTool._extract_keywords "bug moth harvard mark computer 1947" =
      ({"bug_term", "bug_insect", "harvard_mark", "computer", "year_1940s"} : Finset String) := by
    decide
  have h2 : FactsMemoryTool._extract_keywords "first bug moth harvard 1947" =
      ({"bug_term", "bug_insect", "harvard_mark", "year_1940s"} : Finset String) := by
    decide
  have hsim : FactsMemoryTool._calculate_similarity "bug moth harvard mark computer 1947"
      "first bug moth harvard 1947" = 1 := by
    unfold FactsMemoryTool._calculate_similarity
    rw [h1, h2]
    have hi : (({"bug_term", "bug_insect", "harvard_mark", "computer", "year_1940s"} : Finset String) ∩
        ({"bug_term", "bug_insect", "harvard_mark", "year_1940s"} : Finset String)).card = 4 := by
      decide
    have hc1 : ({"bug_term", "bug_insect", "harvard_mark", "computer", "year_1940s"} :
        Finset String).card = 5 := by decide
    have hc2 : ({"bug_term", "bug_insect", "harvard_mark", "year_1940s"} :
        Finset String).card = 4 := by decide
    rw [if_neg (by decide), hi, hc1, hc2]
    norm_num
  refine ⟨hsim, ?_⟩
  simp only [FactsMemoryTool.CheckFactTool_run]
  have hnorm : pyStrip (pyLower "bug moth harvard mark computer 1947") =
      "bug moth harvard mark computer 1947" := by decide
  rw [hnorm]
  have hfind1 : ([⟨"first bug moth harvard 1947", "", "2026-01-01T00:00:00"⟩] :
      List FactsMemoryTool.FactEntry).find?
      (fun entry => pyStrip (pyLower entry.summary) == "bug moth harvard mark computer 1947") =
      none := by decide
  rw [hfind1]
  simp only [List.find?]
  rw [show (decide (FactsMemoryTool.SIMILARITY_THRESHOLD <
      FactsMemoryTool._calculate_similarity "bug moth harvard mark computer 1947"
        "first bug moth harvard 1947")) = true by
    rw [hsim]; norm_num [FactsMemoryTool.SIMILARITY_THRESHOLD]]

/-! ### C6: `list_recent` -/

/-- C6 counterexample: with one stored record, `list_recent(0)` returns the
whole store (Python `facts[-0:]` is `facts[0:]`), not the empty list that
the claim demands for `limit ≤ 0`. -/
theorem list_recent_zero_counterexample :
    FactsMemoryTool.ListUsedFactsTool_run 0
      [⟨"a", "", "2026-01-01T00:00:00"⟩] =
      some [⟨"a", "", "2026-01-01T00:00:00"⟩]
    ∧ some [(⟨"a", "", "2026-01-01T00:00:00"⟩ : FactsMemoryTool.FactEntry)] ≠
      some ([] : List FactsMemoryTool.FactEntry) := by
  constructor
  · decide
  · decide

/-- C6 (amended): on an empty store `list_recent` returns the sentinel; for
`limit > 0` it returns the `min(limit, size)` most recently saved records
most-recent-first (hence the entire store when `limit` exceeds the size);
for `limit ≤ 0` it returns the store minus its `min(|limit|, size)` oldest
records, most-recent-first (so `limit = 0` yields the entire reversed
store, not the empty list); saving `A, B, C` then listing 2 yields
`[C, B]`. -/
theorem list_recent_behavior (limit : Int) (facts : List FactsMemoryTool.FactEntry) :
    (facts = [] → FactsMemoryTool.ListUsedFactsTool_run limit facts = none)
    ∧ (facts ≠ [] → 0 < limit →
        FactsMemoryTool.ListUsedFactsTool_run limit facts =
          some ((facts.drop (facts.length - limit.toNat)).reverse))
    ∧ (facts ≠ [] → limit ≤ 0 →
        FactsMemoryTool.ListUsedFactsTool_run limit facts =
          some ((facts.drop (-limit).toNat).reverse))
    ∧ (∀ A B C : FactsMemoryTool.FactEntry,
        FactsMemoryTool.ListUsedFactsTool_run 2 [A, B, C] = some [C, B]) := by
  refine ⟨?_, ?_, ?_, ?_⟩
  · intro h
    simp [FactsMemoryTool.ListUsedFactsTool_run, h]
  · intro h hl
    unfold FactsMemoryTool.ListUsedFactsTool_run pySliceFrom
    rw [if_neg h, if_pos (by omega : -limit < 0)]
    rw [neg_neg]
  · intro h hl
    unfold FactsMemoryTool.ListUsedFactsTool_run pySliceFrom
    rw [if_neg h, if_neg (by omega : ¬ -limit < 0)]
  · intro A B C
    unfold FactsMemoryTool.ListUsedFactsTool_run pySliceFrom
    rw [if_neg (by simp), if_pos (by omega : (-2 : Int) < 0)]
    simp

theorem list_recent_behavior_witness :
    FactsMemoryTool.ListUsedFactsTool_run 2
      [⟨"A", "", "d1"⟩, ⟨"B", "", "d2"⟩, ⟨"C", "", "d3"⟩] =
      some [⟨"C", "", "d3"⟩, ⟨"B", "", "d2"⟩] :=
  (list_recent_behavior 2 [⟨"A", "", "d1"⟩, ⟨"B", "", "d2"⟩, ⟨"C", "", "d3"⟩]).2.2.2
    ⟨"A", "", "d1"⟩ ⟨"B", "", "d2"⟩ ⟨"C", "", "d3"⟩

/-! ### C5: the duplicate guard of `save` -/

/-- C5: `save` is guarded only by the exact normalized-key duplicate check:
if a stored record has the same normalized key the call returns the
already-saved outcome, writes nothing and leaves the record list unchanged;
otherwise — regardless of any similarity — it appends and writes.  Stated
for both the fact store and the news-URL store. -/
theorem save_duplicate_guard :
    (∀ (s f now : String) (facts : List FactsMemoryTool.FactEntry),
      ((∃ e ∈ facts, pyStrip (pyLower e.summary) = pyStrip (pyLower s)) →
        FactsMemoryTool.SaveFactTool_run s f now facts =
          ⟨SaveOutcome.alreadySaved, facts, false⟩)
      ∧ ((¬ ∃ e ∈ facts, pyStrip (pyLower e.summary) = pyStrip (pyLower s)) →
        FactsMemoryTool.SaveFactTool_run s f now facts =
          ⟨SaveOutcome.saved,
            if FactsMemoryTool.MAX_ENTRIES <
                (facts ++ ([⟨s, f, now⟩] : List FactsMemoryTool.FactEntry)).length then
              (facts ++ ([⟨s, f, now⟩] : List FactsMemoryTool.FactEntry)).drop
                ((facts ++ ([⟨s, f, now⟩] : List FactsMemoryTool.FactEntry)).length -
                  FactsMemoryTool.MAX_ENTRIES)
            else facts ++ ([⟨s, f, now⟩] : List FactsMemoryTool.FactEntry), true⟩))
    ∧ (∀ (u t now : String) (urls : List NewsMemoryTool.NewsEntry),
      ((∃ e ∈ urls, NewsMemoryTool._normalize_url e.url = NewsMemoryTool._normalize_url u) →
        NewsMemoryTool.SaveNewsUrlTool_run u t now urls =
          ⟨SaveOutcome.alreadySaved, urls, false⟩)
      ∧ ((¬ ∃ e ∈ urls, NewsMemoryTool._normalize_url e.url = NewsMemoryTool._normalize_url u) →
        NewsMemoryTool.SaveNewsUrlTool_run u t now urls =
          ⟨SaveOutcome.saved,
            if NewsMemoryTool.MAX_ENTRIES <
                (urls ++ ([⟨u, t, now⟩] : List NewsMemoryTool.NewsEntry)).length then
              (urls ++ ([⟨u, t, now⟩] : List NewsMemoryTool.NewsEntry)).drop
                ((urls ++ ([⟨u, t, now⟩] : List NewsMemoryTool.NewsEntry)).length -
                  NewsMemoryTool.MAX_ENTRIES)
            else urls ++ ([⟨u, t, now⟩] : List NewsMemoryTool.NewsEntry), true⟩)) := by
  constructor
  · intro s f now facts
    constructor
    · intro hex
      have hany : facts.any
          (fun entry => pyStrip (pyLower entry.summary) == pyStrip (pyLower s)) = true := by
        rw [List.any_eq_true]
        obtain ⟨e, he, heq⟩ := hex
        exact ⟨e, he, by rw [beq_iff_eq]; exact heq⟩
      simp only [FactsMemoryTool.SaveFactTool_run]
      rw [if_pos hany]
    · intro hex
      have hany : facts.any
          (fun entry => pyStrip (pyLower entry.summary) == pyStrip (pyLower s)) = false := by
        rw [List.any_eq_false]
        intro e he heq
        exact hex ⟨e, he, by rwa [beq_iff_eq] at heq⟩
      simp only [FactsMemoryTool.SaveFactTool_run]
      rw [if_neg (by rw [hany]; exact Bool.false_ne_true)]
  · intro u t now urls
    constructor
    · intro hex
      have hany : urls.any
          (fun entry => NewsMemoryTool._normalize_url entry.url ==
            NewsMemoryTool._normalize_url u) = true := by
        rw [List.any_eq_true]
        obtain ⟨e, he, heq⟩ := hex
        exact ⟨e, he, by rw [beq_iff_eq]; exact heq⟩
      simp only [NewsMemoryTool.SaveNewsUrlTool_run]
      rw [if_pos hany]
    · intro hex
      have hany : urls.any
          (fun entry => NewsMemoryTool._normalize_url entry.url ==
            NewsMemoryTool._normalize_url u) = false := by
        rw [List.any_eq_false]
        intro e he heq
        exact hex ⟨e, he, by rwa [beq_iff_eq] at heq⟩
      simp only [NewsMemoryTool.SaveNewsUrlTool_run]
      rw [if_neg (by rw [hany]; exact Bool.false_ne_true)]

theorem save_duplicate_guard_witness :
    FactsMemoryTool.SaveFactTool_run "A " "" "d2" [⟨"a", "", "d1"⟩] =
      ⟨SaveOutcome.alreadySaved, [⟨"a", "", "d1"⟩], false⟩
    ∧ NewsMemoryTool.SaveNewsUrlTool_run "https://x.com/a/" "t" "d2"
        [⟨"https://X.com/a", "t0", "d1"⟩] =
      ⟨SaveOutcome.alreadySaved, [⟨"https://X.com/a", "t0", "d1"⟩], false⟩ :=
  ⟨(save_duplicate_guard.1 "A " "" "d2" [⟨"a", "", "d1"⟩]).1
    ⟨⟨"a", "", "d1"⟩, by simp, by decide⟩,
   (save_duplicate_guard.2 "https://x.com/a/" "t" "d2" [⟨"https://X.com/a", "t0", "d1"⟩]).1
    ⟨⟨"https://X.com/a", "t0", "d1"⟩, by simp, by decide⟩⟩

/-! ### C10: empty-URL semantics of the unified tool memory -/

theorem saveToolScan_empty_url_none_iff (nn : String) (tools : List ToolMemory.ToolEntry) :
    ToolMemory.saveToolScan nn "" tools = none ↔
      ∀ e ∈ tools, ¬(e.name ≠ "" ∧ ToolMemory._normalize_name e.name = nn) := by
  induction tools with
  | nil => simp [ToolMemory.saveToolScan]
  | cons e rest ih =>
    by_cases h : e.name ≠ "" ∧ ToolMemory._normalize_name e.name = nn
    · simp [ToolMemory.saveToolScan, h]
    · rw [ToolMemory.saveToolScan, if_neg h,
        if_neg (by simp : ¬(("" : String) ≠ "" ∧ e.url ≠ "" ∧
          ToolMemory._normalize_url e.url = ""))]
      rw [ih]
      constructor
      · intro hall x hx
        rcases List.mem_cons.mp hx with h1 | h1
        · rw [h1]; exact h
        · exact hall x h1
      · intro hall x hx
        exact hall x (List.mem_cons_of_mem e hx)

/-- C10: saving with an empty `tool_url` skips the URL-duplicate guard — the
save is rejected iff some stored record has a non-empty name with the same
normalized name; two records with different normalized names and empty URLs
coexist; and the check-by-URL operation ignores stored records whose `url`
field is empty. -/
theorem tool_memory_empty_url :
    (∀ (tool_name now : String) (tools : List ToolMemory.ToolEntry),
      ((ToolMemory.SaveToolTool_run tool_name "" now tools).2.outcome =
          SaveOutcome.alreadySaved ↔
        ∃ e ∈ tools, e.name ≠ "" ∧
          ToolMemory._normalize_name e.name = ToolMemory._normalize_name tool_name))
    ∧ (∀ (n1 n2 d1 d2 : String),
        ToolMemory._normalize_name n1 ≠ ToolMemory._normalize_name n2 →
        (ToolMemory.SaveToolTool_run n2 "" d2
            ((ToolMemory.SaveToolTool_run n1 "" d1 []).2.entries)).2.entries =
          [⟨n1, "", d1⟩, ⟨n2, "", d2⟩])
    ∧ (∀ (url : String) (tools : List ToolMemory.ToolEntry),
        (∀ e ∈ tools, e.url = "") → ToolMemory.CheckToolUrlTool_run url tools = false) := by
  refine ⟨?_, ?_, ?_⟩
  · intro tool_name now tools
    simp only [ToolMemory.SaveToolTool_run, ne_eq, not_true_eq_false, if_false, ite_false]
    cases hscan : ToolMemory.saveToolScan (ToolMemory._normalize_name tool_name) "" tools with
    | none =>
      simp only []
      constructor
      · intro hout
        exact absurd hout (by simp)
      · intro hex
        obtain ⟨e, he, hne, heq⟩ := hex
        rw [saveToolScan_empty_url_none_iff] at hscan
        exact absurd ⟨hne, heq⟩ (hscan e he)
    | some r =>
      simp only []
      constructor
      · intro _
        by_contra hnex
        have : ToolMemory.saveToolScan (ToolMemory._normalize_name tool_name) "" tools = none := by
          rw [saveToolScan_empty_url_none_iff]
          intro e he hcon
          exact hnex ⟨e, he, hcon⟩
        rw [this] at hscan
        exact Option.noConfusion hscan
      · intro _
        trivial
  · intro n1 n2 d1 d2 h
    have h1 : (ToolMemory.SaveToolTool_run n1 "" d1 []).2.entries = [⟨n1, "", d1⟩] := by
      simp only [ToolMemory.SaveToolTool_run, ToolMemory.saveToolScan]
      norm_num [ToolMemory.MAX_ENTRIES]
    rw [h1]
    simp only [ToolMemory.SaveToolTool_run]
    rw [show ToolMemory.saveToolScan (ToolMemory._normalize_name n2)
        (if ("" : String) ≠ "" then ToolMemory._normalize_url "" else "")
        [⟨n1, "", d1⟩] = none by
      rw [show (if ("" : String) ≠ "" then ToolMemory._normalize_url "" else "") = "" by simp]
      rw [saveToolScan_empty_url_none_iff]
      intro e he hcon
      have he1 : e = (⟨n1, "", d1⟩ : ToolMemory.ToolEntry) := by simpa using he
      exact h (by rw [← hcon.2, he1])]
    norm_num [ToolMemory.MAX_ENTRIES]
  · intro url tools hall
    rw [ToolMemory.CheckToolUrlTool_run, List.any_eq_false]
    intro e he
    simp [hall e he]

theorem tool_memory_empty_url_witness :
    (ToolMemory.SaveToolTool_run "Tool B" "" "d2"
        ((ToolMemory.SaveToolTool_run "Tool A" "" "d1" []).2.entries)).2.entries =
      [⟨"Tool A", "", "d1"⟩, ⟨"Tool B", "", "d2"⟩]
    ∧ ToolMemory.CheckToolUrlTool_run "https://x.com"
        [⟨"Tool A", "", "d1"⟩, ⟨"Tool B", "", "d2"⟩] = false :=
  ⟨tool_memory_empty_url.2.1 "Tool A" "Tool B" "d1" "d2" (by decide),
   tool_memory_empty_url.2.2 "https://x.com" [⟨"Tool A", "", "d1"⟩, ⟨"Tool B", "", "d2"⟩]
     (by intro e he; rcases List.mem_cons.mp he with h | h
         · rw [h]
         · rw [show e = (⟨"Tool B", "", "d2"⟩ : ToolMemory.ToolEntry) by simpa using h])⟩

/-! ### C8: `_load_memory` recovery -/

/-- C8: `_load_memory` is total (never raises): on a parse failure or a
parsed value that is not a dict containing the category key it returns the
empty document — on a parse failure it additionally renames the file to the
`.bak` path when the rename succeeds, and swallows a rename failure (still
returning the empty document with the file system untouched); a valid
document is returned as-is. -/
theorem load_memory_recovers (parsed : FactsMemoryTool.ParseOutcome)
    (renameSucceeds : Bool) (fs : FactsMemoryTool.LoadFS) :
    ((parsed = FactsMemoryTool.ParseOutcome.parseError ∨
        parsed = FactsMemoryTool.ParseOutcome.ioError ∨
        (∃ d, parsed = FactsMemoryTool.ParseOutcome.ok d ∧
          FactsMemoryTool.isValidMemoryDoc d = false)) →
      (FactsMemoryTool._load_memory parsed renameSucceeds fs).1 =
        FactsMemoryTool.emptyFactsDoc)
    ∧ (parsed = FactsMemoryTool.ParseOutcome.parseError → renameSucceeds = true →
      (FactsMemoryTool._load_memory parsed renameSucceeds fs).2 =
        { memoryFile := none, backupFile := fs.memoryFile })
    ∧ (parsed = FactsMemoryTool.ParseOutcome.parseError → renameSucceeds = false →
      (FactsMemoryTool._load_memory parsed renameSucceeds fs).2 = fs)
    ∧ (∀ d, parsed = FactsMemoryTool.ParseOutcome.ok d →
      FactsMemoryTool.isValidMemoryDoc d = true →
      (FactsMemoryTool._load_memory parsed renameSucceeds fs).1 = d) := by
  refine ⟨?_, ?_, ?_, ?_⟩
  · rintro (h | h | ⟨d, hd, hbad⟩)
    · rw [h]
      rfl
    · rw [h]
      rfl
    · rw [hd]
      simp only [FactsMemoryTool._load_memory]
      rw [if_neg (by rw [hbad]; exact Bool.false_ne_true)]
  · intro h hr
    rw [h, hr]
    rfl
  · intro h hr
    rw [h, hr]
    rfl
  · intro d hd hvalid
    rw [hd]
    simp only [FactsMemoryTool._load_memory]
    rw [if_pos hvalid]

theorem load_memory_recovers_witness :
    (FactsMemoryTool._load_memory FactsMemoryTool.ParseOutcome.parseError true
        ⟨some "not json", none⟩).1 = FactsMemoryTool.emptyFactsDoc
    ∧ (FactsMemoryTool._load_memory FactsMemoryTool.ParseOutcome.parseError true
        ⟨some "not json", none⟩).2 =
      { memoryFile := none, backupFile := some "not json" } :=
  ⟨(load_memory_recovers FactsMemoryTool.ParseOutcome.parseError true
      ⟨some "not json", none⟩).1 (Or.inl rfl),
   (load_memory_recovers FactsMemoryTool.ParseOutcome.parseError true
      ⟨some "not json", none⟩).2.1 rfl rfl⟩

/-! ### C9: `_save_memory` atomicity -/

/-- C9: `_save_memory` is all-or-nothing: on any injected failure the error
is re-raised to the caller and the previously persisted target content is
unchanged, with the temporary file removed whenever the best-effort
`os.unlink` succeeds; on success the target is atomically replaced by the
new document and no temporary file remains. -/
theorem save_memory_atomic {δ : Type} (data : δ) (failAt : FactsMemoryTool.SaveFailure)
    (unlinkSucceeds : Bool) (fs : FactsMemoryTool.SaveFS δ) :
    (failAt ≠ FactsMemoryTool.SaveFailure.noFailure →
      (FactsMemoryTool._save_memory data failAt unlinkSucceeds fs).1 = true
      ∧ (FactsMemoryTool._save_memory data failAt unlinkSucceeds fs).2.target = fs.target)
    ∧ (failAt = FactsMemoryTool.SaveFailure.noFailure →
      (FactsMemoryTool._save_memory data failAt unlinkSucceeds fs).1 = false
      ∧ (FactsMemoryTool._save_memory data failAt unlinkSucceeds fs).2 =
        { target := some data, tempExists := false })
    ∧ ((failAt = FactsMemoryTool.SaveFailure.writeFails ∨
        failAt = FactsMemoryTool.SaveFailure.replaceFails) → unlinkSucceeds = true →
      (FactsMemoryTool._save_memory data failAt unlinkSucceeds fs).2.tempExists = false) := by
  refine ⟨?_, ?_, ?_⟩
  · intro h
    cases failAt with
    | noFailure => exact absurd rfl h
    | mkstempFails => exact ⟨rfl, rfl⟩
    | writeFails => exact ⟨rfl, rfl⟩
    | replaceFails => exact ⟨rfl, rfl⟩
  · intro h
    rw [h]
    exact ⟨rfl, rfl⟩
  · intro h hu
    rcases h with h | h <;> rw [h, hu] <;> rfl

theorem save_memory_atomic_witness :
    (FactsMemoryTool._save_memory "new" FactsMemoryTool.SaveFailure.writeFails true
        ⟨some "old", false⟩).1 = true
    ∧ (FactsMemoryTool._save_memory "new" FactsMemoryTool.SaveFailure.writeFails true
        ⟨some "old", false⟩).2.target = some "old"
    ∧ (FactsMemoryTool._save_memory "new" FactsMemoryTool.SaveFailure.writeFails true
        ⟨some "old", false⟩).2.tempExists = false :=
  ⟨((save_memory_atomic "new" FactsMemoryTool.SaveFailure.writeFails true
      ⟨some "old", false⟩).1 (fun h => FactsMemoryTool.SaveFailure.noConfusion h)).1,
   ((save_memory_atomic "new" FactsMemoryTool.SaveFailure.writeFails true
      ⟨some "old", false⟩).1 (fun h => FactsMemoryTool.SaveFailure.noConfusion h)).2,
   (save_memory_atomic "new" FactsMemoryTool.SaveFailure.writeFails true
      ⟨some "old", false⟩).2.2 (Or.inl rfl) rfl⟩

/-! ### C4: bounded FIFO retention -/

theorem saveFact_entries_length_le (s f now : String) {facts : List FactsMemoryTool.FactEntry}
    (h : facts.length ≤ FactsMemoryTool.MAX_ENTRIES) :
    (FactsMemoryTool.SaveFactTool_run s f now facts).entries.length ≤
      FactsMemoryTool.MAX_ENTRIES := by
  have h90 : FactsMemoryTool.MAX_ENTRIES = 90 := rfl
  simp only [FactsMemoryTool.SaveFactTool_run]
  split
  · exact h
  · dsimp only
    split
    · next hgt => simp only [List.length_drop]; omega
    · next hle =>
      rw [not_lt] at hle
      exact hle

theorem runFactSaves_length_le (rs : List (String × String × String)) :
    (runFactSaves rs).length ≤ FactsMemoryTool.MAX_ENTRIES := by
  have key : ∀ (l : List (String × String × String)) (st : List FactsMemoryTool.FactEntry),
      st.length ≤ FactsMemoryTool.MAX_ENTRIES →
      (l.foldl (fun st r => (FactsMemoryTool.SaveFactTool_run r.1 r.2.1 r.2.2 st).entries)
        st).length ≤ FactsMemoryTool.MAX_ENTRIES := by
    intro l
    induction l with
    | nil => intro st h; exact h
    | cons r rest ih =>
      intro st h
      exact ih _ (saveFact_entries_length_le r.1 r.2.1 r.2.2 h)
  exact key rs [] (by simp [FactsMemoryTool.MAX_ENTRIES])

theorem runFactSaves_eq_drop {rs : List (String × String × String)}
    (h : rs.Pairwise (fun a b => pyStrip (pyLower a.1) ≠ pyStrip (pyLower b.1))) :
    runFactSaves rs =
      (rs.map factEntryOf).drop (rs.length - FactsMemoryTool.MAX_ENTRIES) := by
  have h90 : FactsMemoryTool.MAX_ENTRIES = 90 := rfl
  induction rs using List.reverseRecOn with
  | nil => rfl
  | append_singleton rs r ih =>
    have hsplit := List.pairwise_append.mp h
    have hp : rs.Pairwise (fun a b => pyStrip (pyLower a.1) ≠ pyStrip (pyLower b.1)) := hsplit.1
    have hr : ∀ a ∈ rs, pyStrip (pyLower a.1) ≠ pyStrip (pyLower r.1) := by
      intro a ha
      exact hsplit.2.2 a ha r (List.mem_singleton.mpr rfl)
    have hst := ih hp
    have hstep : runFactSaves (rs ++ [r]) =
        (FactsMemoryTool.SaveFactTool_run r.1 r.2.1 r.2.2 (runFactSaves rs)).entries := by
      unfold runFactSaves
      rw [List.foldl_append]
      rfl
    have hnodup : (runFactSaves rs).any
        (fun entry => pyStrip (pyLower entry.summary) == pyStrip (pyLower r.1)) = false := by
      rw [List.any_eq_false]
      intro e he heq
      rw [beq_iff_eq] at heq
      rw [hst] at he
      obtain ⟨a, ha, hae⟩ := List.mem_map.mp (List.drop_subset _ _ he)
      have : pyStrip (pyLower a.1) = pyStrip (pyLower r.1) := by
        rw [show a.1 = e.summary by rw [← hae]; rfl] at *
        exact heq
      exact hr a ha this
    rw [hstep]
    simp only [FactsMemoryTool.SaveFactTool_run]
    rw [if_neg (by rw [hnodup]; exact Bool.false_ne_true)]
    dsimp only
    rw [hst]
    rw [show ({ summary := r.1, full := r.2.1, date_used := r.2.2 } :
      FactsMemoryTool.FactEntry) = factEntryOf r from rfl]
    set n := rs.length with hn
    have hlenst : ((rs.map factEntryOf).drop (n - FactsMemoryTool.MAX_ENTRIES)).length =
        n - (n - FactsMemoryTool.MAX_ENTRIES) := by
      rw [List.length_drop, List.length_map]
    have hmapapp : (rs ++ [r]).map factEntryOf = rs.map factEntryOf ++ [factEntryOf r] := by
      rw [List.map_append]
      rfl
    by_cases hcase : n < 90
    · have hd0 : n - FactsMemoryTool.MAX_ENTRIES = 0 := by omega
      have hd0' : (rs ++ [r]).length - FactsMemoryTool.MAX_ENTRIES = 0 := by
        rw [List.length_append, List.length_singleton]
        omega
      rw [hd0, List.drop_zero, hd0', List.drop_zero, hmapapp]
      rw [if_neg (by rw [List.length_append, List.length_map, List.length_singleton]; omega)]
    · have hge : 90 ≤ n := by omega
      have hlen1 : ((rs.map factEntryOf).drop (n - FactsMemoryTool.MAX_ENTRIES) ++
          [factEntryOf r]).length = 91 := by
        rw [List.length_append, hlenst, List.length_singleton]
        omega
      rw [if_pos (by rw [hlen1]; omega)]
      rw [hlen1, hmapapp]
      have h1le : (1 : Nat) ≤ ((rs.map factEntryOf).drop (n - FactsMemoryTool.MAX_ENTRIES)).length := by
        rw [hlenst]; omega
      rw [show (91 : Nat) - FactsMemoryTool.MAX_ENTRIES = 1 from rfl]
      rw [List.drop_append_of_le_length h1le, List.drop_drop]
      have hidx : n - FactsMemoryTool.MAX_ENTRIES + 1 =
          (rs ++ [r]).length - FactsMemoryTool.MAX_ENTRIES := by
        rw [List.length_append, List.length_singleton]
        omega
      have hle2 : (rs ++ [r]).length - FactsMemoryTool.MAX_ENTRIES ≤ (rs.map factEntryOf).length := by
        rw [List.length_append, List.length_singleton, List.length_map]
        omega
      rw [hidx, List.drop_append_of_le_length hle2]

/-- C4: starting from the empty store, any sequence of saves leaves at most
`MAX_ENTRIES` (90) records; and after saving `MAX_ENTRIES + k` records with
pairwise distinct normalized summaries (`k ≥ 1`) the store holds exactly 90
records, the most recently saved record is present, and no record matching
any of the `k` oldest-saved normalized summaries remains (FIFO eviction by
insertion order). -/
theorem save_bounded_fifo :
    (∀ rs : List (String × String × String),
      (runFactSaves rs).length ≤ FactsMemoryTool.MAX_ENTRIES)
    ∧ (∀ (rs : List (String × String × String)) (k : Nat),
        rs.Pairwise (fun a b => pyStrip (pyLower a.1) ≠ pyStrip (pyLower b.1)) →
        rs.length = FactsMemoryTool.MAX_ENTRIES + k → 1 ≤ k →
        (runFactSaves rs).length = FactsMemoryTool.MAX_ENTRIES
        ∧ (∀ hne : rs ≠ [], factEntryOf (rs.getLast hne) ∈ runFactSaves rs)
        ∧ (∀ r ∈ rs.take k, ∀ e ∈ runFactSaves rs,
            pyStrip (pyLower e.summary) ≠ pyStrip (pyLower r.1))) := by
  have h90 : FactsMemoryTool.MAX_ENTRIES = 90 := rfl
  refine ⟨runFactSaves_length_le, ?_⟩
  intro rs k hp hlen hk
  have hd := runFactSaves_eq_drop hp
  have hkd : rs.length - FactsMemoryTool.MAX_ENTRIES = k := by omega
  refine ⟨?_, ?_, ?_⟩
  · rw [hd, List.length_drop, List.length_map]
    omega
  · intro hne
    set m := rs.map factEntryOf with hm
    have hmne : m ≠ [] := by
      rw [hm]
      simpa using hne
    have hstlen : (runFactSaves rs).length = 90 := by
      rw [hd, List.length_drop, List.length_map]
      omega
    have hstne : runFactSaves rs ≠ [] := by
      intro hx
      rw [hx] at hstlen
      exact absurd hstlen (by simp)
    have hdropne : m.drop (rs.length - FactsMemoryTool.MAX_ENTRIES) ≠ [] := by
      rw [← hd]
      exact hstne
    have h1 : (m.drop (rs.length - FactsMemoryTool.MAX_ENTRIES)).getLast? = m.getLast? := by
      conv_rhs => rw [← List.take_append_drop (rs.length - FactsMemoryTool.MAX_ENTRIES) m]
      rw [List.getLast?_append]
      cases hx : (m.drop (rs.length - FactsMemoryTool.MAX_ENTRIES)).getLast? with
      | none =>
        exact absurd hx (by simpa using hdropne)
      | some x => simp
    have h2 : m.getLast? = some (factEntryOf (rs.getLast hne)) := by
      rw [List.getLast?_eq_getLast m hmne, List.getLast_map]
    have h3 : (runFactSaves rs).getLast? = some (factEntryOf (rs.getLast hne)) := by
      rw [hd]
      rw [h1, h2]
    have h4 := List.getLast?_eq_getLast (runFactSaves rs) hstne
    rw [h4] at h3
    rw [← Option.some_inj.mp h3]
    exact List.getLast_mem hstne
  · intro r hr e he
    rw [hd, hkd, ← List.map_drop] at he
    obtain ⟨b, hb, hbe⟩ := List.mem_map.mp he
    have hsplit : List.Pairwise (fun a b => pyStrip (pyLower a.1) ≠ pyStrip (pyLower b.1))
        (rs.take k ++ rs.drop k) := by
      rw [List.take_append_drop]
      exact hp
    have hR := (List.pairwise_append.mp hsplit).2.2 r hr b hb
    intro hcon
    apply hR
    rw [← hcon, ← hbe]
    rfl

set_option maxRecDepth 4000 in
theorem save_bounded_fifo_witness :
    ((List.range 91).map (fun i => (toString i, "", ""))).length =
      FactsMemoryTool.MAX_ENTRIES + 1
    ∧ (runFactSaves ((List.range 91).map (fun i => (toString i, "", "")))).length =
      FactsMemoryTool.MAX_ENTRIES :=
  ⟨by decide,
   (save_bounded_fifo.2 ((List.range 91).map (fun i => (toString i, "", ""))) 1
     (by decide) (by decide) (by decide)).1⟩

/-! ### C2: the check verdict order -/

/-- C2: `CheckFactTool._run` returns `"OUI"` exactly when some stored summary
equals the candidate after case/whitespace normalization (the exact scan
over all records runs before any similarity comparison, so an exact match
anywhere wins); failing that, it returns `"ATTENTION"` carrying a stored
summary whose similarity with the normalized candidate strictly exceeds
the 0.4 threshold whenever one exists; otherwise `"NON"`. -/
theorem check_fact_verdicts (fact_summary : String) (facts : List FactsMemoryTool.FactEntry) :
    (FactsMemoryTool.CheckFactTool_run fact_summary facts = FactsMemoryTool.CheckVerdict.oui ↔
      ∃ e ∈ facts, pyStrip (pyLower e.summary) = pyStrip (pyLower fact_summary))
    ∧ (∀ matched,
        FactsMemoryTool.CheckFactTool_run fact_summary facts =
          FactsMemoryTool.CheckVerdict.attention matched →
        (¬ ∃ e ∈ facts, pyStrip (pyLower e.summary) = pyStrip (pyLower fact_summary))
        ∧ ∃ e ∈ facts, e.summary = matched ∧
            FactsMemoryTool.SIMILARITY_THRESHOLD <
              FactsMemoryTool._calculate_similarity (pyStrip (pyLower fact_summary)) e.summary)
    ∧ ((¬ ∃ e ∈ facts, pyStrip (pyLower e.summary) = pyStrip (pyLower fact_summary)) →
        (∃ e ∈ facts, FactsMemoryTool.SIMILARITY_THRESHOLD <
          FactsMemoryTool._calculate_similarity (pyStrip (pyLower fact_summary)) e.summary) →
        ∃ matched, FactsMemoryTool.CheckFactTool_run fact_summary facts =
          FactsMemoryTool.CheckVerdict.attention matched)
    ∧ (FactsMemoryTool.CheckFactTool_run fact_summary facts = FactsMemoryTool.CheckVerdict.non ↔
        (¬ ∃ e ∈ facts, pyStrip (pyLower e.summary) = pyStrip (pyLower fact_summary))
        ∧ ¬ ∃ e ∈ facts, FactsMemoryTool.SIMILARITY_THRESHOLD <
            FactsMemoryTool._calculate_similarity (pyStrip (pyLower fact_summary)) e.summary) := by
  cases hf1 : facts.find?
      (fun entry => pyStrip (pyLower entry.summary) == pyStrip (pyLower fact_summary)) with
  | some e1 =>
    have hrun : FactsMemoryTool.CheckFactTool_run fact_summary facts =
        FactsMemoryTool.CheckVerdict.oui := by
      simp only [FactsMemoryTool.CheckFactTool_run]
      rw [hf1]
    have hex : ∃ e ∈ facts, pyStrip (pyLower e.summary) = pyStrip (pyLower fact_summary) := by
      refine ⟨e1, List.mem_of_find?_eq_some hf1, ?_⟩
      have := List.find?_some hf1
      rwa [beq_iff_eq] at this
    refine ⟨⟨fun _ => hex, fun _ => hrun⟩, ?_, ?_, ?_⟩
    · intro matched hm
      rw [hrun] at hm
      exact absurd hm (by intro hx; exact FactsMemoryTool.CheckVerdict.noConfusion hx)
    · intro hnex _
      exact absurd hex hnex
    · constructor
      · intro hm
        rw [hrun] at hm
        exact absurd hm (by intro hx; exact FactsMemoryTool.CheckVerdict.noConfusion hx)
      · intro ⟨hnex, _⟩
        exact absurd hex hnex
  | none =>
    have hnex : ¬ ∃ e ∈ facts, pyStrip (pyLower e.summary) = pyStrip (pyLower fact_summary) := by
      rw [List.find?_eq_none] at hf1
      rintro ⟨e, he, heq⟩
      exact hf1 e he (by rw [beq_iff_eq]; exact heq)
    cases hf2 : facts.find? (fun entry =>
        decide (FactsMemoryTool.SIMILARITY_THRESHOLD <
          FactsMemoryTool._calculate_similarity (pyStrip (pyLower fact_summary))
            entry.summary)) with
    | some e2 =>
      have hrun : FactsMemoryTool.CheckFactTool_run fact_summary facts =
          FactsMemoryTool.CheckVerdict.attention e2.summary := by
        simp only [FactsMemoryTool.CheckFactTool_run]
        rw [hf1, hf2]
      have hmem2 := List.mem_of_find?_eq_some hf2
      have hsim2 : FactsMemoryTool.SIMILARITY_THRESHOLD <
          FactsMemoryTool._calculate_similarity (pyStrip (pyLower fact_summary)) e2.summary := by
        have := List.find?_some hf2
        rwa [decide_eq_true_eq] at this
      refine ⟨⟨?_, fun hex => absurd hex hnex⟩, ?_, ?_, ?_⟩
      · intro hm
        rw [hrun] at hm
        exact absurd hm (by intro hx; exact FactsMemoryTool.CheckVerdict.noConfusion hx)
      · intro matched hm
        rw [hrun] at hm
        injection hm with hm2
        exact ⟨hnex, e2, hmem2, hm2, hsim2⟩
      · intro _ _
        exact ⟨e2.summary, hrun⟩
      · constructor
        · intro hm
          rw [hrun] at hm
          exact absurd hm (by intro hx; exact FactsMemoryTool.CheckVerdict.noConfusion hx)
        · intro ⟨_, hnsim⟩
          exact absurd ⟨e2, hmem2, hsim2⟩ hnsim
    | none =>
      have hnsim : ¬ ∃ e ∈ facts, FactsMemoryTool.SIMILARITY_THRESHOLD <
          FactsMemoryTool._calculate_similarity (pyStrip (pyLower fact_summary)) e.summary := by
        rw [List.find?_eq_none] at hf2
        rintro ⟨e, he, hgt⟩
        exact hf2 e he (by rw [decide_eq_true_eq]; exact hgt)
      have hrun : FactsMemoryTool.CheckFactTool_run fact_summary facts =
          FactsMemoryTool.CheckVerdict.non := by
        simp only [FactsMemoryTool.CheckFactTool_run]
        rw [hf1, hf2]
      refine ⟨⟨?_, fun hex => absurd hex hnex⟩, ?_, ?_, ?_⟩
      · intro hm
        rw [hrun] at hm
        exact absurd hm (by intro hx; exact FactsMemoryTool.CheckVerdict.noConfusion hx)
      · intro matched hm
        rw [hrun] at hm
        exact absurd hm (by intro hx; exact FactsMemoryTool.CheckVerdict.noConfusion hx)
      · intro _ hex
        exact absurd hex hnsim
      · exact ⟨fun _ => ⟨hnex, hnsim⟩, fun _ => hrun⟩

theorem check_fact_verdicts_witness :
    ∃ matched, FactsMemoryTool.CheckFactTool_run "grace hopper anecdote"
      [⟨"grace hopper bug story", "", "d"⟩] =
      FactsMemoryTool.CheckVerdict.attention matched :=
  (check_fact_verdicts "grace hopper anecdote" [⟨"grace hopper bug story", "", "d"⟩]).2.2.1
    (by decide)
    ⟨⟨"grace hopper bug story", "", "d"⟩, by simp, by
      rw [show pyStrip (pyLower "grace hopper anecdote") = "grace hopper anecdote" by decide]
      have h1 : FactsMemoryTool._extract_keywords "grace hopper anecdote" =
          ({"grace_hopper", "anecdote"} : Finset String) := by decide
      have h2 : FactsMemoryTool._extract_keywords "grace hopper bug story" =
          ({"grace_hopper", "bug_term", "story"} : Finset String) := by decide
      unfold FactsMemoryTool._calculate_similarity
      rw [h1, h2, if_neg (by decide)]
      rw [show (({"grace_hopper", "anecdote"} : Finset String) ∩
          ({"grace_hopper", "bug_term", "story"} : Finset String)).card = 1 by decide]
      norm_num [show ({"grace_hopper", "anecdote"} : Finset String).card = 2 by decide,
        show ({"grace_hopper", "bug_term", "story"} : Finset String).card = 3 by decide,
        FactsMemoryTool.SIMILARITY_THRESHOLD]⟩

/-! ### C1: the similarity function against the spec formula -/

theorem char_isPunct_iff {c : Char} : FactsMemoryTool.isPunct c = true ↔
    (c.toNat = 46 ∨ c.toNat = 44 ∨ c.toNat = 59 ∨ c.toNat = 58 ∨ c.toNat = 33 ∨
     c.toNat = 63 ∨ c.toNat = 34 ∨ c.toNat = 39 ∨ c.toNat = 40 ∨ c.toNat = 41 ∨
     c.toNat = 45) := by
  simp only [FactsMemoryTool.isPunct, FactsMemoryTool.PUNCT_CHARS, List.contains_cons,
    List.contains_nil, Bool.or_eq_true, beq_iff_eq, char_eq_iff_toNat]
  norm_num
  rw [show (Char.ofNat 46).toNat = 46 from rfl, show (Char.ofNat 44).toNat = 44 from rfl,
    show (Char.ofNat 59).toNat = 59 from rfl, show (Char.ofNat 58).toNat = 58 from rfl,
    show (Char.ofNat 33).toNat = 33 from rfl, show (Char.ofNat 63).toNat = 63 from rfl,
    show (Char.ofNat 34).toNat = 34 from rfl, show (Char.ofNat 39).toNat = 39 from rfl,
    show (Char.ofNat 40).toNat = 40 from rfl, show (Char.ofNat 41).toNat = 41 from rfl,
    show (Char.ofNat 45).toNat = 45 from rfl]

theorem char_isPunct_toLower (c : Char) :
    FactsMemoryTool.isPunct (Char.toLower c) = FactsMemoryTool.isPunct c := by
  rw [Bool.eq_iff_iff, char_isPunct_iff, char_isPunct_iff]
  have h1 := char_toLower_toNat c
  split at h1 <;> omega

theorem extract_step_eq {w : List Char} (hw : ∀ c ∈ w, c.isWhitespace = false)
    (ks : Finset String) :
    (if PyStr.stripBoth FactsMemoryTool.isPunct (PyStr.lower w) = [] then ks
     else if FactsMemoryTool.STOP_WORDS.contains
         (⟨PyStr.stripBoth FactsMemoryTool.isPunct (PyStr.lower w)⟩ : String) then ks
     else if (PyStr.stripBoth FactsMemoryTool.isPunct (PyStr.lower w)).length < 3 then ks
     else insert (FactsMemoryTool._normalize_keyword
         ⟨PyStr.stripBoth FactsMemoryTool.isPunct (PyStr.lower w)⟩) ks) =
    (if 3 ≤ (PyStr.lower (PyStr.stripBoth FactsMemoryTool.isPunct w)).length ∧
        ¬ FactsMemoryTool.STOP_WORDS.contains
          (⟨PyStr.lower (PyStr.stripBoth FactsMemoryTool.isPunct w)⟩ : String) then
       insert ((FactsMemoryTool.SYNONYMS.lookup
           (⟨PyStr.lower (PyStr.stripBoth FactsMemoryTool.isPunct w)⟩ : String)).getD
         ⟨PyStr.lower (PyStr.stripBoth FactsMemoryTool.isPunct w)⟩) ks
     else ks) := by
  have hcomm : PyStr.lower (PyStr.stripBoth FactsMemoryTool.isPunct w) =
      PyStr.stripBoth FactsMemoryTool.isPunct (PyStr.lower w) :=
    (PyStr.stripBoth_map_comm char_isPunct_toLower w).symm
  rw [hcomm]
  set cw := PyStr.stripBoth FactsMemoryTool.isPunct (PyStr.lower w) with hcw
  have hnk : FactsMemoryTool._normalize_keyword ⟨cw⟩ =
      (FactsMemoryTool.SYNONYMS.lookup (⟨cw⟩ : String)).getD ⟨cw⟩ := by
    have hlow : PyStr.lower cw = cw := by
      refine lower_eq_self_of_fixed (fun c hc => ?_)
      have hc2 : c ∈ PyStr.lower w := PyStr.mem_of_mem_stripBoth (by rw [← hcw]; exact hc)
      obtain ⟨c0, _, hc0⟩ := List.mem_map.mp hc2
      rw [← hc0]
      exact char_toLower_idem c0
    have hws : PyStr.stripBoth Char.isWhitespace cw = cw := by
      refine PyStr.stripBoth_eq_self_of_not (fun c hc => ?_)
      have hc2 : c ∈ PyStr.lower w := PyStr.mem_of_mem_stripBoth (by rw [← hcw]; exact hc)
      obtain ⟨c0, hc0mem, hc0⟩ := List.mem_map.mp hc2
      rw [← hc0, char_isWhitespace_toLower]
      exact hw c0 hc0mem
    have hpp : PyStr.stripBoth FactsMemoryTool.isPunct cw = cw := by
      rw [hcw]
      exact PyStr.stripBoth_idem _ _
    simp only [FactsMemoryTool._normalize_keyword]
    rw [hlow, hws, hpp]
    cases FactsMemoryTool.SYNONYMS.lookup (⟨cw⟩ : String) <;> rfl
  by_cases hnil : cw = []
  · rw [if_pos hnil, if_neg (by rw [hnil]; rintro ⟨h3, _⟩; simp at h3)]
  · rw [if_neg hnil]
    by_cases hstop : FactsMemoryTool.STOP_WORDS.contains (⟨cw⟩ : String) = true
    · rw [if_pos hstop, if_neg (fun hand => hand.2 hstop)]
    · rw [if_neg hstop]
      by_cases hlen3 : cw.length < 3
      · rw [if_pos hlen3, if_neg (fun hand => by omega)]
      · rw [if_neg hlen3, if_pos ⟨by omega, hstop⟩, hnk]

theorem extract_eq_specTagSet (text : String) :
    FactsMemoryTool._extract_keywords text = specTagSet text := by
  unfold FactsMemoryTool._extract_keywords specTagSet
  rw [PyStr.split_stripBoth_ws, PyStr.split_lower, List.foldl_map]
  refine List.foldl_ext _ _ _ ?_
  intro ks w hw
  exact extract_step_eq (PyStr.split_no_ws text.data w hw) ks

/-- C1: for every pair of texts, `_calculate_similarity` returns
`|tags1 ∩ tags2| / min(|tags1|, |tags2|)` over the specification's tag
sets (whitespace tokenization, punctuation stripping, lowercasing,
discarding of short and stop-word tokens, synonym canonicalization), and
exactly `0` when either tag set is empty. -/
theorem similarity_matches_spec (text1 text2 : String) :
    FactsMemoryTool._calculate_similarity text1 text2 =
      if specTagSet text1 = ∅ ∨ specTagSet text2 = ∅ then 0
      else ((specTagSet text1 ∩ specTagSet text2).card : ℚ) /
        (min ((specTagSet text1).card : ℚ) ((specTagSet text2).card : ℚ)) := by
  unfold FactsMemoryTool._calculate_similarity
  rw [extract_eq_specTagSet, extract_eq_specTagSet]
